import Mathlib

/-!
# Pipeline bootstrapping engine: a verified model

A shallow embedding of the pipeline bootstrapping engine of a CLI control
plane (repository-URL classification for GitHub / CodeCommit / Bitbucket,
region reconciliation, branch resolution, environment resolution,
length-bounded pipeline naming, and idempotent artifact provisioning).

The Go implementation file of this subsystem is not part of the sampled
sources; only its exhaustive test file is.  Every definition below is
therefore modelled from the specification document, and validated against
the concrete input/output vectors pinned by the repository's test file
(`internal/pkg/cli/pipeline_init_test.go`), which are replayed as theorems
in the test-alignment section.

Strings are modelled as lists of characters (`Str`), so that the standard
`List` lemmas apply; `str` converts a Lean string literal.
-/

/-- Strings of the model: lists of characters. -/
abbrev Str := List Char

/-- Conversion from Lean string literals into the model's strings. -/
def str (s : String) : Str := s.data

/-! ## Basic string utilities used by the engine -/

/-- `strStarts s p` : does `s` start with `p`? -/
def strStarts (s p : Str) : Bool := decide (s.take p.length = p)

/-- `strEnds s p` : does `s` end with `p`? -/
def strEnds (s p : Str) : Bool := decide (s.drop (s.length - p.length) = p)

/-- Strip one trailing `".git"` from a name, when present.  Modelled from the
spec: ".git suffix stripping applies uniformly to the name field across all
providers when present". -/
def stripDotGit (s : Str) : Str :=
  if strEnds s (str ".git") then s.take (s.length - 4) else s

/-- Split a string at every occurrence of the character `c`. -/
def splitCh (c : Char) : Str → List Str
  | [] => [[]]
  | x :: xs =>
    match splitCh c xs with
    | [] => [[]]
    | y :: ys => if x = c then [] :: y :: ys else (x :: y) :: ys

/-- Split at the first occurrence of character `c`, if any. -/
def splitFirstCh (c : Char) : Str → Option (Str × Str)
  | [] => none
  | x :: xs =>
    if x = c then some ([], xs)
    else
      match splitFirstCh c xs with
      | some (a, b) => some (x :: a, b)
      | none => none

/-- Split at the first occurrence of the (non-empty) pattern `pat`, if any. -/
def splitFirstL (pat : Str) : Str → Option (Str × Str)
  | [] => none
  | x :: xs =>
    if strStarts (x :: xs) pat ∧ pat ≠ [] then some ([], (x :: xs).drop pat.length)
    else
      match splitFirstL pat xs with
      | some (a, b) => some (x :: a, b)
      | none => none

/-- Does `s` contain `pat` as a contiguous substring? -/
def hasSub (pat : Str) : Str → Bool
  | [] => pat.isEmpty
  | c :: rest => strStarts (c :: rest) pat || hasSub pat rest

/-- First line of a command's captured output. -/
def firstLine (s : Str) : Str := s.takeWhile (fun c => c != '\n')

/-- Trim surrounding whitespace. -/
def trimStr (s : Str) : Str :=
  ((s.dropWhile Char.isWhitespace).reverse.dropWhile Char.isWhitespace).reverse

/-! ## Utility lemmas -/

theorem take_len_append (p r : Str) : (p ++ r).take p.length = p := by
  induction p with
  | nil => simp
  | cons c cs ih => simp [ih]

theorem drop_len_append (p r : Str) : (p ++ r).drop p.length = r := by
  induction p with
  | nil => simp
  | cons c cs ih => simp [ih]

theorem strStarts_append (p r : Str) : strStarts (p ++ r) p = true := by
  simp [strStarts, take_len_append]

theorem strStarts_append_false (p q r : Str)
    (h1 : strStarts p q = false) (h2 : strStarts q p = false) :
    strStarts (q ++ r) p = false := by
  simp only [strStarts, decide_eq_false_iff_not] at h1 h2 ⊢
  intro hcontra
  rcases Nat.le_total p.length q.length with hle | hle
  · apply h2
    rw [List.take_append_eq_append_take, Nat.sub_eq_zero_of_le hle, List.take_zero,
      List.append_nil] at hcontra
    exact hcontra
  · apply h1
    rw [List.take_append_eq_append_take, List.take_of_length_le hle] at hcontra
    rw [← hcontra]
    exact take_len_append q _

theorem strEnds_append (a p : Str) : strEnds (a ++ p) p = true := by
  have h : (a ++ p).length - p.length = a.length := by
    simp
  simp [strEnds, h, drop_len_append]

theorem stripDotGit_append (n : Str) : stripDotGit (n ++ str ".git") = n := by
  have h4 : (str ".git").length = 4 := by decide
  have hlen : (n ++ str ".git").length - 4 = n.length := by
    simp [h4]
  rw [stripDotGit, strEnds_append, if_pos rfl, hlen, take_len_append]

theorem stripDotGit_of_not_ends (n : Str) (h : strEnds n (str ".git") = false) :
    stripDotGit n = n := by
  simp [stripDotGit, h]

theorem splitCh_ne_nil (c : Char) (s : Str) : splitCh c s ≠ [] := by
  cases s with
  | nil => simp [splitCh]
  | cons x xs =>
    cases hsp : splitCh c xs with
    | nil => simp [splitCh, hsp]
    | cons y ys =>
      simp only [splitCh, hsp]
      split <;> simp

theorem splitCh_of_not_mem (c : Char) (s : Str) (h : c ∉ s) : splitCh c s = [s] := by
  induction s with
  | nil => rfl
  | cons x xs ih =>
    have hx : x ≠ c := fun hc => h (hc ▸ List.mem_cons_self x xs)
    have hxs : c ∉ xs := fun hm => h (List.mem_cons_of_mem x hm)
    rw [splitCh, ih hxs]
    simp [hx]

theorem splitCh_append (c : Char) (a b : Str) (h : c ∉ a) :
    splitCh c (a ++ c :: b) = a :: splitCh c b := by
  induction a with
  | nil =>
    cases hsp : splitCh c b with
    | nil => exact absurd hsp (splitCh_ne_nil c b)
    | cons y ys => simp [splitCh, hsp]
  | cons x xs ih =>
    have hx : x ≠ c := fun hc => h (hc ▸ List.mem_cons_self x xs)
    have hxs : c ∉ xs := fun hm => h (List.mem_cons_of_mem x hm)
    rw [List.cons_append, splitCh, ih hxs]
    simp [hx]

theorem splitFirstCh_none (c : Char) (s : Str) (h : c ∉ s) :
    splitFirstCh c s = none := by
  induction s with
  | nil => rfl
  | cons x xs ih =>
    have hx : x ≠ c := fun hc => h (hc ▸ List.mem_cons_self x xs)
    have hxs : c ∉ xs := fun hm => h (List.mem_cons_of_mem x hm)
    rw [splitFirstCh, if_neg hx, ih hxs]

theorem splitFirstCh_append (c : Char) (a b : Str) (h : c ∉ a) :
    splitFirstCh c (a ++ c :: b) = some (a, b) := by
  induction a with
  | nil => simp [splitFirstCh]
  | cons x xs ih =>
    have hx : x ≠ c := fun hc => h (hc ▸ List.mem_cons_self x xs)
    have hxs : c ∉ xs := fun hm => h (List.mem_cons_of_mem x hm)
    rw [List.cons_append, splitFirstCh, if_neg hx, ih hxs]

theorem splitFirstL_append (h : Char) (t a b : Str) (ha : h ∉ a) :
    splitFirstL (h :: t) (a ++ (h :: t) ++ b) = some (a, b) := by
  induction a with
  | nil =>
    show splitFirstL (h :: t) (h :: (t ++ b)) = some ([], b)
    simp only [splitFirstL]
    rw [if_pos]
    · show some ([], ((h :: t) ++ b).drop (h :: t).length) = some ([], b)
      rw [drop_len_append]
    · refine ⟨?_, by simp⟩
      show strStarts ((h :: t) ++ b) (h :: t) = true
      exact strStarts_append _ _
  | cons x xs ih =>
    have hx : x ≠ h := fun hc => ha (hc ▸ List.mem_cons_self x xs)
    have hxs : h ∉ xs := fun hm => ha (List.mem_cons_of_mem x hm)
    show splitFirstL (h :: t) (x :: (xs ++ (h :: t) ++ b)) = some (x :: xs, b)
    have hfalse : strStarts (x :: (xs ++ h :: (t ++ b))) (h :: t) = false := by
      simp only [strStarts, decide_eq_false_iff_not]
      intro hcontra
      have h2 : x :: ((xs ++ h :: (t ++ b)).take t.length) = h :: t := hcontra
      injection h2 with h3 _
      exact hx h3
    simp only [splitFirstL]
    rw [if_neg (by simp [hfalse]), ih hxs]

theorem hasSub_of_starts (pat s : Str) (h : strStarts s pat = true) :
    hasSub pat s = true := by
  cases s with
  | nil =>
    simp only [strStarts, decide_eq_true_eq] at h
    simp only [List.take_nil] at h
    simp [hasSub, ← h, List.isEmpty_iff]
  | cons c rest => simp [hasSub, h]

theorem hasSub_append (pat a b : Str) : hasSub pat (a ++ pat ++ b) = true := by
  induction a with
  | nil =>
    rw [List.nil_append]
    exact hasSub_of_starts _ _ (strStarts_append _ _)
  | cons x xs ih =>
    have hshape : (x :: xs) ++ pat ++ b = x :: (xs ++ pat ++ b) := by simp
    rw [hshape, hasSub, ih]
    simp

/-! ## Pipeline Identity Builder -/

/-- Modelled from the spec: §4.6 Pipeline Identity Builder (source method
`initPipelineOpts.pipelineName`, absent from the sampled sources).  Builds
`"pipeline-" ++ appName ++ "-" ++ repoName`; if the length exceeds 100,
characters are removed from the end of the repo-name segment only, until the
total length is 100 (or the repo-name segment is exhausted). -/
def pipelineName (appName repoName : Str) : Str :=
  let full := str "pipeline-" ++ appName ++ str "-" ++ repoName
  if full.length ≤ 100 then full
  else
    let pfx := str "pipeline-" ++ appName ++ str "-"
    pfx ++ repoName.take (100 - pfx.length)

/-! ## Test alignment: pipeline naming -/

/-- Repository test `TestInitPipelineOpts_pipelineName / generates pipeline name`. -/
theorem testAlign_pipelineName_short :
    pipelineName (str "goodmoose") (str "repo-man") = str "pipeline-goodmoose-repo-man" := by
  decide

/-- Repository test `TestInitPipelineOpts_pipelineName / generates and truncates
pipeline name if it exceeds 100 characters`. -/
theorem testAlign_pipelineName_truncated :
    pipelineName (str "goodmoose01234567820123456783012345678401234567850")
        (str "repo-man101234567820123456783012345678401234567850")
      = str "pipeline-goodmoose01234567820123456783012345678401234567850-repo-man10123456782012345678301234567840" := by
  decide

/-! ## Repository URL Classifier -/

/-- Modelled from the spec: §3 RepoIdentity for GitHub (source type `ghRepoDetails`). -/
structure ghRepoDetails where
  name : Str
  owner : Str
deriving Repr, DecidableEq

/-- Modelled from the spec: §3 RepoIdentity for CodeCommit (source type `ccRepoDetails`). -/
structure ccRepoDetails where
  name : Str
  region : Str
deriving Repr, DecidableEq

/-- Modelled from the spec: §3 RepoIdentity for Bitbucket (source type `bbRepoDetails`). -/
structure bbRepoDetails where
  name : Str
  owner : Str
deriving Repr, DecidableEq

/-- Modelled from the spec: §7 error taxonomy of the bootstrapping engine.
`wrapped` covers the stage-prefixed collaborator failures. -/
inductive CliErr
  | unsupportedProvider (url : Str)
  | ghMalformed (url : Str)
  | ccMalformed (url : Str)
  | bbMalformed (url : Str)
  | regionUnparseable (url : Str)
  | regionMismatch (repoName repoRegion appName pipelineRegion : Str)
  | wrapped (msg : Str)
deriving Repr, DecidableEq

/-- The user-visible message of each engine error, with the wordings pinned by
the repository's tests. -/
def renderErr : CliErr → Str
  | .unsupportedProvider url =>
    str "repository " ++ url ++ str " must be from a supported provider: GitHub, CodeCommit or Bitbucket"
  | .ghMalformed url =>
    str "unable to parse the GitHub repository owner and name from " ++ url ++
      str ": please pass the repository URL with the format `--url https://github.com/{owner}/{repositoryName}`"
  | .ccMalformed url => str "unknown CodeCommit URL format: " ++ url
  | .bbMalformed url => str "unable to parse the Bitbucket repository name from " ++ url
  | .regionUnparseable url => str "unable to parse the AWS region from " ++ url
  | .regionMismatch repoName repoRegion appName pipelineRegion =>
    str "repository " ++ repoName ++ str " is in " ++ repoRegion ++ str ", but app " ++
      appName ++ str " is in " ++ pipelineRegion ++ str "; they must be in the same region"
  | .wrapped msg => msg

/-- Modelled from the spec: the CodeCommit region token must name a known AWS
region (the repository's tests reject the well-shaped but unknown token
"us-mess-2" and accept "us-gov-west-1", "sa-east-1", "us-east-2"). -/
def knownAwsRegions : List Str :=
  [str "us-east-1", str "us-east-2", str "us-west-1", str "us-west-2",
   str "af-south-1", str "ap-east-1", str "ap-south-1",
   str "ap-northeast-1", str "ap-northeast-2", str "ap-northeast-3",
   str "ap-southeast-1", str "ap-southeast-2", str "ca-central-1",
   str "cn-north-1", str "cn-northwest-1",
   str "eu-central-1", str "eu-west-1", str "eu-west-2", str "eu-west-3",
   str "eu-north-1", str "eu-south-1", str "me-south-1", str "sa-east-1",
   str "us-gov-east-1", str "us-gov-west-1"]

/-- Modelled from the spec: §4.1, GitHub dialects
`https://github.com/{owner}/{name}[.git]`, `git@github.com:{owner}/{name}[.git]`,
`git://github.com/{owner}/{name}[.git]` (source type `ghRepoURL`, method `parse`).
A reference that resembles the GitHub host but fails the path grammar yields the
GitHub-specific malformed-URL error. -/
def ghParse (url : Str) : Except CliErr ghRepoDetails :=
  let core :=
    if strStarts url (str "https://github.com/") then
      some (url.drop (str "https://github.com/").length)
    else if strStarts url (str "git@github.com:") then
      some (url.drop (str "git@github.com:").length)
    else if strStarts url (str "git://github.com/") then
      some (url.drop (str "git://github.com/").length)
    else none
  match core with
  | none => .error (.ghMalformed url)
  | some rest =>
    match splitCh '/' rest with
    | [o, nm] =>
      if o ≠ [] ∧ nm ≠ [] then .ok ⟨stripDotGit nm, o⟩ else .error (.ghMalformed url)
    | _ => .error (.ghMalformed url)

/-- Modelled from the spec: §4.1, CodeCommit dialects
`https://git-codecommit.{region}.amazonaws.com/v1/repos/{name}`,
`ssh://git-codecommit.{region}.amazonaws.com/v1/repos/{name}`,
`codecommit::{region}://{name}` (source type `ccRepoURL`, method `parse`).
The region token must name a known AWS region; otherwise the
region-unparseable error is raised. -/
def ccParse (url : Str) : Except CliErr ccRepoDetails :=
  let parts :=
    if strStarts url (str "https://git-codecommit.") then
      splitFirstL (str ".amazonaws.com/v1/repos/") (url.drop (str "https://git-codecommit.").length)
    else if strStarts url (str "ssh://git-codecommit.") then
      splitFirstL (str ".amazonaws.com/v1/repos/") (url.drop (str "ssh://git-codecommit.").length)
    else if strStarts url (str "codecommit::") then
      splitFirstL (str "://") (url.drop (str "codecommit::").length)
    else none
  match parts with
  | none => .error (.ccMalformed url)
  | some (region, nm) =>
    if region ∈ knownAwsRegions then .ok ⟨stripDotGit nm, region⟩
    else .error (.regionUnparseable url)

/-- Modelled from the spec: §4.1, Bitbucket dialects
`https://[{user}@]bitbucket.org/{owner}/{name}[.git]`,
`ssh://git@bitbucket.org:{owner}/{name}[.git]` (source type `bbRepoURL`,
method `parse`). -/
def bbParse (url : Str) : Except CliErr bbRepoDetails :=
  let core :=
    if strStarts url (str "ssh://git@bitbucket.org:") then
      some (url.drop (str "ssh://git@bitbucket.org:").length)
    else if strStarts url (str "https://") then
      let rest := url.drop (str "https://").length
      let rest2 :=
        match splitFirstCh '@' rest with
        | some (_, after) => after
        | none => rest
      if strStarts rest2 (str "bitbucket.org/") then
        some (rest2.drop (str "bitbucket.org/").length)
      else none
    else none
  match core with
  | none => .error (.bbMalformed url)
  | some rest =>
    match splitCh '/' rest with
    | [o, nm] =>
      if o ≠ [] ∧ nm ≠ [] then .ok ⟨stripDotGit nm, o⟩ else .error (.bbMalformed url)
    | _ => .error (.bbMalformed url)

/-- Structured result of classification: which provider accepted the
reference, with its provider-specific identity. -/
inductive Classified
  | gh (d : ghRepoDetails)
  | cc (d : ccRepoDetails)
  | bb (d : bbRepoDetails)
deriving Repr, DecidableEq

/-- The repository name of a classified reference. -/
def repoNameOf : Classified → Str
  | .gh d => d.name
  | .cc d => d.name
  | .bb d => d.name

/-- Modelled from the spec: §4.1 classification order — attempt GitHub, then
CodeCommit, then Bitbucket; a reference that names none of the provider hosts
raises the unsupported-provider error carrying the original string. -/
def classify (url : Str) : Except CliErr Classified :=
  if hasSub (str "github.com") url then (ghParse url).map .gh
  else if hasSub (str "codecommit") url then (ccParse url).map .cc
  else if hasSub (str "bitbucket.org") url then (bbParse url).map .bb
  else .error (.unsupportedProvider url)

/-! ## Test alignment: classification

Each theorem replays one input/output vector pinned by the repository's test
file against the model. -/

/-- `TestInitPipelineGHRepoURL_parse / successfully parses name without .git suffix`. -/
theorem testAlign_gh_noSuffix :
    ghParse (str "https://github.com/badgoose/cli") = .ok ⟨str "cli", str "badgoose"⟩ := by
  rfl

/-- `TestInitPipelineGHRepoURL_parse / successfully parses repo name with .git suffix`. -/
theorem testAlign_gh_suffix :
    ghParse (str "https://github.com/koke/grit.git") = .ok ⟨str "grit", str "koke"⟩ := by
  rfl

/-- `TestInitPipelineGHRepoURL_parse / returns an error if it is not a github URL`. -/
theorem testAlign_gh_malformed :
    ghParse (str "https://git-codecommit.us-east-1.amazonaws.com/v1/repos/whatever")
        = .error (.ghMalformed (str "https://git-codecommit.us-east-1.amazonaws.com/v1/repos/whatever"))
    ∧ renderErr (.ghMalformed (str "https://git-codecommit.us-east-1.amazonaws.com/v1/repos/whatever"))
        = str "unable to parse the GitHub repository owner and name from https://git-codecommit.us-east-1.amazonaws.com/v1/repos/whatever: please pass the repository URL with the format `--url https://github.com/{owner}/{repositoryName}`" := by
  exact ⟨rfl, rfl⟩

/-- `TestInitPipelineCCRepoURL_parse / successfully parses https url`. -/
theorem testAlign_cc_https :
    ccParse (str "https://git-codecommit.sa-east-1.amazonaws.com/v1/repos/aws-sample")
      = .ok ⟨str "aws-sample", str "sa-east-1"⟩ := by
  rfl

/-- `TestInitPipelineCCRepoURL_parse / successfully parses ssh url`. -/
theorem testAlign_cc_ssh :
    ccParse (str "ssh://git-codecommit.us-east-2.amazonaws.com/v1/repos/aws-sample")
      = .ok ⟨str "aws-sample", str "us-east-2"⟩ := by
  rfl

/-- `TestInitPipelineCCRepoURL_parse / successfully parses federated (GRC) url`. -/
theorem testAlign_cc_grc :
    ccParse (str "codecommit::us-gov-west-1://aws-sample")
      = .ok ⟨str "aws-sample", str "us-gov-west-1"⟩ := by
  rfl

/-- `TestInitPipelineBBRepoURL_parse / successfully parses https url`. -/
theorem testAlign_bb_https :
    bbParse (str "https://huanjani@bitbucket.org/huanjani/aws-copilot-sample-service")
      = .ok ⟨str "aws-copilot-sample-service", str "huanjani"⟩ := by
  rfl

/-- `TestInitPipelineBBRepoURL_parse / successfully parses ssh url`. -/
theorem testAlign_bb_ssh :
    bbParse (str "ssh://git@bitbucket.org:huanjani/aws-copilot-sample-service")
      = .ok ⟨str "aws-copilot-sample-service", str "huanjani"⟩ := by
  rfl

/-- `TestInitPipelineOpts_Execute / returns error when repository URL is not from
a supported git provider`. -/
theorem testAlign_classify_unsupported :
    classify (str "https://gitlab.company.com/group/project.git")
        = .error (.unsupportedProvider (str "https://gitlab.company.com/group/project.git"))
    ∧ renderErr (.unsupportedProvider (str "https://gitlab.company.com/group/project.git"))
        = str "repository https://gitlab.company.com/group/project.git must be from a supported provider: GitHub, CodeCommit or Bitbucket" := by
  exact ⟨rfl, rfl⟩

/-- `TestInitPipelineOpts_Execute / returns error when GitHub repository URL is
of unknown format`. -/
theorem testAlign_classify_ghMalformed :
    classify (str "thisisnotevenagithub.comrepository")
      = .error (.ghMalformed (str "thisisnotevenagithub.comrepository")) := by
  rfl

/-- `TestInitPipelineOpts_Execute / returns error when CodeCommit repository URL
is of unknown format`. -/
theorem testAlign_classify_ccMalformed :
    classify (str "git-codecommitus-west-2amazonaws.com")
        = .error (.ccMalformed (str "git-codecommitus-west-2amazonaws.com"))
    ∧ renderErr (.ccMalformed (str "git-codecommitus-west-2amazonaws.com"))
        = str "unknown CodeCommit URL format: git-codecommitus-west-2amazonaws.com" := by
  exact ⟨rfl, rfl⟩

/-- `TestInitPipelineOpts_Execute / returns error when CodeCommit repository
contains unknown region`. -/
theorem testAlign_classify_badRegion :
    classify (str "codecommit::us-mess-2://repo-man")
        = .error (.regionUnparseable (str "codecommit::us-mess-2://repo-man"))
    ∧ renderErr (.regionUnparseable (str "codecommit::us-mess-2://repo-man"))
        = str "unable to parse the AWS region from codecommit::us-mess-2://repo-man" := by
  exact ⟨rfl, rfl⟩

/-- `TestInitPipelineOpts_Execute / returns error when Bitbucket repository URL
is of unknown format`. -/
theorem testAlign_classify_bbMalformed :
    classify (str "bitbucket.org")
        = .error (.bbMalformed (str "bitbucket.org"))
    ∧ renderErr (.bbMalformed (str "bitbucket.org"))
        = str "unable to parse the Bitbucket repository name from bitbucket.org" := by
  exact ⟨rfl, rfl⟩

/-- `TestInitPipelineOpts_Ask / passed-in URL to unsupported repo provider`. -/
theorem testAlign_classify_unsupported2 :
    classify (str "unsupported.org/repositories/repoName")
      = .error (.unsupportedProvider (str "unsupported.org/repositories/repoName")) := by
  rfl

/-! ## Branch Resolver -/

/-- Modelled from the spec: §4.4 Branch Resolver.  `explicit` is the
user-supplied branch; `runnerResult` is the outcome of the local
"current branch" command (captured buffer on success).  Never fails: any
command failure, or empty output, falls back to the literal `"main"`. -/
def resolveBranch (explicit : Str) (runnerResult : Except Str Str) : Str :=
  if explicit ≠ [] then explicit
  else
    match runnerResult with
    | .error _ => str "main"
    | .ok out =>
      let b := trimStr (firstLine out)
      if b = [] then str "main" else b

/-- `TestInitPipelineOpts_Execute / successfully detects local branch and sets it`. -/
theorem testAlign_branch_detected :
    resolveBranch [] (.ok (str "devBranch")) = str "devBranch" := by
  rfl

/-- `TestInitPipelineOpts_Execute / sets main as branch name if error fetching it`. -/
theorem testAlign_branch_fallback :
    resolveBranch [] (.error (str "some error")) = str "main" := by
  rfl

/-! ## Environment Resolver -/

/-- Modelled from the spec: §3 PipelineEnvironment — a resolved deployment
target (source type `config.Environment`). -/
structure EnvCfg where
  name : Str
  region : Str
  isProd : Bool
deriving Repr, DecidableEq

/-- Modelled from the spec: §4.5 Environment Resolver (source method
`initPipelineOpts.getEnvConfigs`).  `lookup` is the configuration store's
`GetEnvironment(appName, envName)`.  Returns the resolution outcome together
with the ordered list of environment names actually queried. -/
def getEnvConfigs (appName : Str) (lookup : Str → Str → Except Str EnvCfg) :
    List Str → Except Str (List EnvCfg) × List Str
  | [] => (.ok [], [])
  | n :: rest =>
    match lookup appName n with
    | .error e =>
      (.error (str "get config of environment " ++ n ++ str ": " ++ e), [n])
    | .ok env =>
      match getEnvConfigs appName lookup rest with
      | (.ok envs, q) => (.ok (env :: envs), n :: q)
      | (.error e, q) => (.error e, n :: q)

/-! ## CLI-level validation -/

/-- Modelled from the spec: the sentinel error used when the workspace has no
registered application (source sentinel `errNoAppInWorkspace`). -/
def errNoAppInWorkspace : Str :=
  str "could not find an application attached to this workspace, please run app init first"

/-- Modelled from the spec: CLI-level validation of the pipeline-init command
(source method `initPipelineOpts.Validate`), behavior pinned by
`TestInitPipelineOpts_Validate`.  `getApp` is the configuration store's
`GetApplication`.  The returned boolean records whether the configuration
store was queried. -/
def validate (appName wsAppName : Str) (getApp : Str → Except Str Unit) :
    Except Str Unit × Bool :=
  if wsAppName = [] then (.error errNoAppInWorkspace, false)
  else if appName ≠ [] ∧ appName ≠ wsAppName then
    (.error (str "cannot specify app " ++ appName ++
      str " because the workspace is already registered with app " ++ wsAppName), false)
  else if appName ≠ [] then
    match getApp appName with
    | .error e =>
      (.error (str "get application " ++ appName ++ str " configuration: " ++ e), true)
    | .ok _ => (.ok (), true)
  else (.ok (), false)

/-- `TestInitPipelineOpts_Validate / invalid app name (not in workspace)`. -/
theorem testAlign_validate_mismatch :
    validate (str "ghost-app") (str "diff-app") (fun _ => .ok ())
      = (.error (str "cannot specify app ghost-app because the workspace is already registered with app diff-app"), false) := by
  rfl

/-- `TestInitPipelineOpts_Validate / invalid app name`. -/
theorem testAlign_validate_getAppFails :
    validate (str "ghost-app") (str "ghost-app") (fun _ => .error (str "some error"))
      = (.error (str "get application ghost-app configuration: some error"), true) := by
  rfl

/-! ## Artifact Provisioner and command execution -/

/-- Outcome of the secret store's `CreateSecret`: the sentinel
"secret already exists" is distinguishable from all other failures. -/
inductive SecretRes
  | okArn (arn : Str)
  | alreadyExists
  | fail (e : Str)
deriving Repr, DecidableEq

/-- Outcome of a workspace artifact write: the "file already exists"
condition (source type `workspace.ErrFileExists`) is distinguishable from
all other failures. -/
inductive WriteRes
  | written (path : Str)
  | alreadyExists (fileName : Str)
  | fail (e : Str)
deriving Repr, DecidableEq

/-- The engine's external collaborators, modelled as predetermined outcomes
for one run (spec §6). -/
structure Collab where
  createSecret : Str → Str → SecretRes
  writeManifest : WriteRes
  writeBuildspec : WriteRes
  getApplication : Str → Except Str Unit
  getRegionalResources : Except Str Unit
  parseBuildspec : Except Str Str
  sessionRegion : Except Str Str
  runnerBranch : Except Str Str

/-- Observable side-effecting steps of one pipeline-init run. -/
inductive Ev
  | evSession
  | evRunBranch
  | evCreateSecret
  | evWriteManifest
  | evGetApp
  | evGetRegional
  | evRender
  | evWriteBuildspec
deriving Repr, DecidableEq

/-- Outcome of the secret-creation step: "already exists" is recovered as
success; any other failure is wrapped (spec §4.7 step 1). -/
def secretOutcome (appName repoName token : Str) (c : Collab) : Except CliErr Unit :=
  match c.createSecret (str "github-token-" ++ appName ++ str "-" ++ repoName) token with
  | .okArn _ => .ok ()
  | .alreadyExists => .ok ()
  | .fail e => .error (.wrapped (str "create pipeline secret: " ++ e))

/-- Outcome of the pipeline-manifest write: "file already exists" is recovered
as success; any other failure is wrapped. -/
def manifestOutcome (c : Collab) : Except CliErr Unit :=
  match c.writeManifest with
  | .written _ => .ok ()
  | .alreadyExists _ => .ok ()
  | .fail e => .error (.wrapped (str "write pipeline manifest to workspace: " ++ e))

/-- Outcome of the application-record lookup (spec §4.7 step 2). -/
def appOutcome (appName : Str) (c : Collab) : Except CliErr Unit :=
  match c.getApplication appName with
  | .error e => .error (.wrapped (str "get application " ++ appName ++ str ": " ++ e))
  | .ok _ => .ok ()

/-- Outcome of the regional-resource lookup (spec §4.7 step 3). -/
def regionalOutcome (c : Collab) : Except CliErr Unit :=
  match c.getRegionalResources with
  | .error e => .error (.wrapped (str "get regional application resources: " ++ e))
  | .ok _ => .ok ()

/-- Outcome of buildspec rendering; renderer failure propagates verbatim
(spec §4.7 step 4). -/
def renderOutcome (c : Collab) : Except CliErr Unit :=
  match c.parseBuildspec with
  | .error e => .error (.wrapped e)
  | .ok _ => .ok ()

/-- Outcome of the buildspec write: "file already exists" is recovered as
success; any other failure is wrapped. -/
def buildspecOutcome (c : Collab) : Except CliErr Unit :=
  match c.writeBuildspec with
  | .written _ => .ok ()
  | .alreadyExists _ => .ok ()
  | .fail e => .error (.wrapped (str "write buildspec to workspace: " ++ e))

/-- Modelled from the spec and the repository's Execute tests: the fixed
order of the provisioner's side-effecting steps.  The tests pin that the
pipeline-manifest write happens right after the secret step and before the
application-record lookup (`returns an error if can't write manifest` sets no
expectation on `GetApplication`; `returns an error if application cannot be
retrieved` expects the manifest write to have succeeded first). -/
def stepList (appName repoName token : Str) (c : Collab) : List (Ev × Except CliErr Unit) :=
  (if token = [] then [] else [(.evCreateSecret, secretOutcome appName repoName token c)]) ++
  [(.evWriteManifest, manifestOutcome c),
   (.evGetApp, appOutcome appName c),
   (.evGetRegional, regionalOutcome c),
   (.evRender, renderOutcome c),
   (.evWriteBuildspec, buildspecOutcome c)]

/-- Run steps in order: each step is attempted only if every earlier step
succeeded; the first failure aborts the run.  Returns the outcome and the
ordered trace of attempted steps. -/
def runSteps : List (Ev × Except CliErr Unit) → Except CliErr Unit × List Ev
  | [] => (.ok (), [])
  | (ev, .error e) :: _ => (.error e, [ev])
  | (ev, .ok _) :: rest => ((runSteps rest).1, ev :: (runSteps rest).2)

/-- The Artifact Provisioner (spec §4.7): the side-effecting steps of one
pipeline-init Execute run, after classification, region reconciliation and
branch resolution. -/
def provision (appName repoName token : Str) (c : Collab) : Except CliErr Unit × List Ev :=
  runSteps (stepList appName repoName token c)

/-- Modelled from the spec: §4.3 Region Reconciler.  Runs only when the
classified provider is CodeCommit; compares the repository's region with the
session's default region and fails on mismatch, naming the repository and
both regions. -/
def regionCheck (appName : Str) (cls : Classified) (c : Collab) :
    Except CliErr Unit × List Ev :=
  match cls with
  | .cc d =>
    (match c.sessionRegion with
     | .error e => (.error (.wrapped e), [.evSession])
     | .ok reg =>
       if reg = d.region then (.ok (), [.evSession])
       else (.error (.regionMismatch d.name d.region appName reg), [.evSession]))
  | .gh _ => (.ok (), [])
  | .bb _ => (.ok (), [])

/-- Modelled from the spec: §2 control flow of one pipeline-init Execute run
(source method `initPipelineOpts.Execute`): classify the repository URL,
reconcile the region for CodeCommit references, resolve the branch, then run
the provisioning steps.  A classification or region failure aborts before
any provisioning step.  Returns the outcome, the ordered trace of
side-effecting steps, and the run's resolved repository branch. -/
def execute (appName token branchArg url : Str) (c : Collab) :
    Except CliErr Unit × List Ev × Str :=
  match classify url with
  | .error e => (.error e, [], branchArg)
  | .ok cls =>
    match regionCheck appName cls c with
    | (.error e, t0) => (.error e, t0, branchArg)
    | (.ok _, t0) =>
      let branch := resolveBranch branchArg c.runnerBranch
      let branchEv : List Ev := if branchArg = [] then [.evRunBranch] else []
      let pr := provision appName (repoNameOf cls) token c
      (pr.1, t0 ++ branchEv ++ pr.2, branch)

/-! ## Test alignment: Execute orchestration -/

/-- Baseline collaborators for replaying the Execute test vectors: every
collaborator succeeds. -/
def collabAlign : Collab where
  createSecret := fun _ _ => .okArn (str "some-arn")
  writeManifest := .written (str "/pipeline.yml")
  writeBuildspec := .written (str "/buildspec.yml")
  getApplication := fun _ => .ok ()
  getRegionalResources := .ok ()
  parseBuildspec := .ok (str "hello")
  sessionRegion := .ok (str "us-west-2")
  runnerBranch := .error (str "some error")

/-- `TestInitPipelineOpts_Execute / returns error when CodeCommit repository
region does not match pipeline's region`. -/
theorem testAlign_exec_regionMismatch :
    execute (str "demo") [] (str "main") (str "codecommit::us-west-2://repo-man")
        { collabAlign with sessionRegion := .ok (str "us-east-1") }
      = (.error (.regionMismatch (str "repo-man") (str "us-west-2") (str "demo") (str "us-east-1")),
         [.evSession], str "main")
    ∧ renderErr (.regionMismatch (str "repo-man") (str "us-west-2") (str "demo") (str "us-east-1"))
      = str "repository repo-man is in us-west-2, but app demo is in us-east-1; they must be in the same region" := by
  exact ⟨rfl, rfl⟩

/-- `TestInitPipelineOpts_Execute / writes manifest and buildspec for CC
provider` (session region matches; the session is consulted, then all six
run steps complete). -/
theorem testAlign_exec_ccSuccess :
    execute (str "badgoose") [] []
        (str "https://git-codecommit.us-west-2.amazonaws.com/v1/repos/goose") collabAlign
      = (.ok (), [.evSession, .evRunBranch, .evWriteManifest, .evGetApp,
                  .evGetRegional, .evRender, .evWriteBuildspec], str "main") := by
  rfl

/-- `TestInitPipelineOpts_Execute / creates secret and writes manifest and
buildspec for GHV1 provider` (GitHub token present: the secret step runs
first; the session is never consulted). -/
theorem testAlign_exec_ghv1 :
    execute (str "badgoose") (str "hunter2") [] (str "git@github.com:badgoose/goose.git") collabAlign
      = (.ok (), [.evRunBranch, .evCreateSecret, .evWriteManifest, .evGetApp,
                  .evGetRegional, .evRender, .evWriteBuildspec], str "main") := by
  rfl

/-- `TestInitPipelineOpts_Execute / does not return an error if secret already
exists`. -/
theorem testAlign_exec_secretExists :
    (execute (str "badgoose") (str "hunter2") [] (str "git@github.com:badgoose/goose.git")
        { collabAlign with createSecret := fun _ _ => .alreadyExists }).1
      = .ok () := by
  rfl

/-- `TestInitPipelineOpts_Execute / returns an error if can't write manifest`
(the application record is never looked up: the trace stops at the manifest
write). -/
theorem testAlign_exec_manifestFails :
    execute (str "badgoose") (str "hunter2") [] (str "git@github.com:badgoose/goose.git")
        { collabAlign with writeManifest := .fail (str "some error") }
      = (.error (.wrapped (str "write pipeline manifest to workspace: some error")),
         [.evRunBranch, .evCreateSecret, .evWriteManifest], str "main") := by
  rfl

/-- `TestInitPipelineOpts_Execute / returns an error if application cannot be
retrieved` (the manifest write has already happened). -/
theorem testAlign_exec_getAppFails :
    execute (str "badgoose") (str "hunter2") [] (str "git@github.com:badgoose/goose.git")
        { collabAlign with getApplication := fun _ => .error (str "some error") }
      = (.error (.wrapped (str "get application badgoose: some error")),
         [.evRunBranch, .evCreateSecret, .evWriteManifest, .evGetApp], str "main") := by
  rfl

/-- `TestInitPipelineOpts_Execute / returns an error if can't get regional
application resources`. -/
theorem testAlign_exec_regionalFails :
    (execute (str "badgoose") (str "hunter2") [] (str "git@github.com:badgoose/goose.git")
        { collabAlign with getRegionalResources := .error (str "some error") }).1
      = .error (.wrapped (str "get regional application resources: some error")) := by
  rfl

/-- `TestInitPipelineOpts_Execute / returns an error if buildspec cannot be
parsed` (renderer failure propagates verbatim, and the buildspec write is
never attempted: the trace ends at the render step). -/
theorem testAlign_exec_renderFails :
    execute (str "badgoose") (str "hunter2") [] (str "git@github.com:badgoose/goose.git")
        { collabAlign with parseBuildspec := .error (str "some error") }
      = (.error (.wrapped (str "some error")),
         [.evRunBranch, .evCreateSecret, .evWriteManifest, .evGetApp,
          .evGetRegional, .evRender], str "main") := by
  rfl

/-- `TestInitPipelineOpts_Execute / does not return an error if buildspec and
manifest already exists`. -/
theorem testAlign_exec_bothExist :
    (execute (str "badgoose") (str "hunter2") [] (str "git@github.com:badgoose/goose.git")
        { collabAlign with
            writeManifest := .alreadyExists (str "/pipeline.yml"),
            writeBuildspec := .alreadyExists (str "/buildspec.yml") }).1
      = .ok () := by
  rfl

/-- `TestInitPipelineOpts_Execute / returns an error if can't write buildspec`. -/
theorem testAlign_exec_buildspecFails :
    (execute (str "badgoose") (str "hunter2") [] (str "git@github.com:badgoose/goose.git")
        { collabAlign with writeBuildspec := .fail (str "some error") }).1
      = .error (.wrapped (str "write buildspec to workspace: some error")) := by
  rfl

/-- `TestInitPipelineOpts_Ask / returns error if fail to get env config`:
over `["test", "prod"]` with "prod" failing, the error names "prod" and no
environment after "prod" is queried. -/
theorem testAlign_envConfigs :
    getEnvConfigs (str "my-app")
        (fun _ n => if n = str "test" then .ok ⟨str "test", str "us-west-2", false⟩
                    else .error (str "some error"))
        [str "test", str "prod"]
      = (.error (str "get config of environment prod: some error"),
         [str "test", str "prod"]) := by
  rfl

/-! ## Dialect-indexed references (for the suffix-invariance analysis) -/

/-- The nine textual dialects of the three providers (spec §4.1 table). -/
inductive RefDialect
  | ghHttps
  | ghAt
  | ghProto
  | ccHttps
  | ccSsh
  | ccFed
  | bbHttps
  | bbUser
  | bbSsh
deriving Repr, DecidableEq

/-- Is this one of the CodeCommit (region-bearing) dialects? -/
def isCcDialect : RefDialect → Bool
  | .ccHttps => true
  | .ccSsh => true
  | .ccFed => true
  | _ => false

/-- Render a structured reference in the given dialect: `x` is the owner
(GitHub/Bitbucket) or region (CodeCommit), `n` the repository name, `suf` an
optional trailing suffix (`str ".git"` or `[]`). -/
def renderRef : RefDialect → Str → Str → Str → Str
  | .ghHttps, x, n, suf => str "https://github.com/" ++ (x ++ (str "/" ++ (n ++ suf)))
  | .ghAt, x, n, suf => str "git@github.com:" ++ (x ++ (str "/" ++ (n ++ suf)))
  | .ghProto, x, n, suf => str "git://github.com/" ++ (x ++ (str "/" ++ (n ++ suf)))
  | .ccHttps, x, n, suf =>
    str "https://git-codecommit." ++ (x ++ (str ".amazonaws.com/v1/repos/" ++ (n ++ suf)))
  | .ccSsh, x, n, suf =>
    str "ssh://git-codecommit." ++ (x ++ (str ".amazonaws.com/v1/repos/" ++ (n ++ suf)))
  | .ccFed, x, n, suf => str "codecommit::" ++ (x ++ (str "://" ++ (n ++ suf)))
  | .bbHttps, x, n, suf => str "https://" ++ (str "bitbucket.org/" ++ (x ++ (str "/" ++ (n ++ suf))))
  | .bbUser, x, n, suf =>
    str "https://" ++ (x ++ ('@' :: (str "bitbucket.org/" ++ (x ++ (str "/" ++ (n ++ suf))))))
  | .bbSsh, x, n, suf => str "ssh://git@bitbucket.org:" ++ (x ++ (str "/" ++ (n ++ suf)))

/-- Parse a reference with the parser of the dialect's provider, projecting
the identity onto (name, owner-or-region). -/
def parseOf : RefDialect → Str → Except CliErr (Str × Str)
  | .ghHttps, u => (ghParse u).map fun d => (d.name, d.owner)
  | .ghAt, u => (ghParse u).map fun d => (d.name, d.owner)
  | .ghProto, u => (ghParse u).map fun d => (d.name, d.owner)
  | .ccHttps, u => (ccParse u).map fun d => (d.name, d.region)
  | .ccSsh, u => (ccParse u).map fun d => (d.name, d.region)
  | .ccFed, u => (ccParse u).map fun d => (d.name, d.region)
  | .bbHttps, u => (bbParse u).map fun d => (d.name, d.owner)
  | .bbUser, u => (bbParse u).map fun d => (d.name, d.owner)
  | .bbSsh, u => (bbParse u).map fun d => (d.name, d.owner)

theorem splitCh_owner_name (o n suf : Str) (ho : '/' ∉ o) (hn : '/' ∉ n)
    (hs : '/' ∉ suf) : splitCh '/' (o ++ (str "/" ++ (n ++ suf))) = [o, n ++ suf] := by
  have hshape : o ++ (str "/" ++ (n ++ suf)) = o ++ '/' :: (n ++ suf) := rfl
  rw [hshape, splitCh_append _ _ _ ho, splitCh_of_not_mem]
  simp [hn, hs]

theorem ghParse_render_https (o n suf : Str) (ho2 : o ≠ []) (ho : '/' ∉ o)
    (hn2 : n ≠ []) (hn : '/' ∉ n) (hs : '/' ∉ suf) :
    ghParse (renderRef .ghHttps o n suf) = .ok ⟨stripDotGit (n ++ suf), o⟩ := by
  have h1 : strStarts (renderRef .ghHttps o n suf) (str "https://github.com/") = true :=
    strStarts_append _ _
  have hdrop : (renderRef .ghHttps o n suf).drop (str "https://github.com/").length
      = o ++ (str "/" ++ (n ++ suf)) := drop_len_append _ _
  simp only [renderRef] at h1 hdrop ⊢
  simp only [ghParse, h1, if_true, hdrop, splitCh_owner_name o n suf ho hn hs]
  rw [if_pos ⟨ho2, by simp [hn2]⟩]

theorem ghParse_render_at (o n suf : Str) (ho2 : o ≠ []) (ho : '/' ∉ o)
    (hn2 : n ≠ []) (hn : '/' ∉ n) (hs : '/' ∉ suf) :
    ghParse (renderRef .ghAt o n suf) = .ok ⟨stripDotGit (n ++ suf), o⟩ := by
  have h0 : strStarts (renderRef .ghAt o n suf) (str "https://github.com/") = false :=
    strStarts_append_false _ _ _ (by decide) (by decide)
  have h1 : strStarts (renderRef .ghAt o n suf) (str "git@github.com:") = true :=
    strStarts_append _ _
  have hdrop : (renderRef .ghAt o n suf).drop (str "git@github.com:").length
      = o ++ (str "/" ++ (n ++ suf)) := drop_len_append _ _
  simp only [renderRef] at h0 h1 hdrop ⊢
  simp only [ghParse, h0, h1, if_true, Bool.false_eq_true, if_false, hdrop,
    splitCh_owner_name o n suf ho hn hs]
  rw [if_pos ⟨ho2, by simp [hn2]⟩]

theorem ghParse_render_proto (o n suf : Str) (ho2 : o ≠ []) (ho : '/' ∉ o)
    (hn2 : n ≠ []) (hn : '/' ∉ n) (hs : '/' ∉ suf) :
    ghParse (renderRef .ghProto o n suf) = .ok ⟨stripDotGit (n ++ suf), o⟩ := by
  have h0 : strStarts (renderRef .ghProto o n suf) (str "https://github.com/") = false :=
    strStarts_append_false _ _ _ (by decide) (by decide)
  have h0b : strStarts (renderRef .ghProto o n suf) (str "git@github.com:") = false :=
    strStarts_append_false _ _ _ (by decide) (by decide)
  have h1 : strStarts (renderRef .ghProto o n suf) (str "git://github.com/") = true :=
    strStarts_append _ _
  have hdrop : (renderRef .ghProto o n suf).drop (str "git://github.com/").length
      = o ++ (str "/" ++ (n ++ suf)) := drop_len_append _ _
  simp only [renderRef] at h0 h0b h1 hdrop ⊢
  simp only [ghParse, h0, h0b, h1, if_true, Bool.false_eq_true, if_false, hdrop,
    splitCh_owner_name o n suf ho hn hs]
  rw [if_pos ⟨ho2, by simp [hn2]⟩]

theorem ccParse_render_https (x n suf : Str) (hx : '.' ∉ x) (hreg : x ∈ knownAwsRegions) :
    ccParse (renderRef .ccHttps x n suf) = .ok ⟨stripDotGit (n ++ suf), x⟩ := by
  have h1 : strStarts (renderRef .ccHttps x n suf) (str "https://git-codecommit.") = true :=
    strStarts_append _ _
  have hdrop : (renderRef .ccHttps x n suf).drop (str "https://git-codecommit.").length
      = x ++ (str ".amazonaws.com/v1/repos/" ++ (n ++ suf)) := drop_len_append _ _
  have hsplit : splitFirstL (str ".amazonaws.com/v1/repos/")
      (x ++ (str ".amazonaws.com/v1/repos/" ++ (n ++ suf))) = some (x, n ++ suf) := by
    rw [← List.append_assoc]
    exact splitFirstL_append '.' (str "amazonaws.com/v1/repos/") x (n ++ suf) hx
  simp only [renderRef] at h1 hdrop ⊢
  simp only [ccParse, h1, if_true, hdrop, hsplit]
  rw [if_pos hreg]

theorem ccParse_render_ssh (x n suf : Str) (hx : '.' ∉ x) (hreg : x ∈ knownAwsRegions) :
    ccParse (renderRef .ccSsh x n suf) = .ok ⟨stripDotGit (n ++ suf), x⟩ := by
  have h0 : strStarts (renderRef .ccSsh x n suf) (str "https://git-codecommit.") = false :=
    strStarts_append_false _ _ _ (by decide) (by decide)
  have h1 : strStarts (renderRef .ccSsh x n suf) (str "ssh://git-codecommit.") = true :=
    strStarts_append _ _
  have hdrop : (renderRef .ccSsh x n suf).drop (str "ssh://git-codecommit.").length
      = x ++ (str ".amazonaws.com/v1/repos/" ++ (n ++ suf)) := drop_len_append _ _
  have hsplit : splitFirstL (str ".amazonaws.com/v1/repos/")
      (x ++ (str ".amazonaws.com/v1/repos/" ++ (n ++ suf))) = some (x, n ++ suf) := by
    rw [← List.append_assoc]
    exact splitFirstL_append '.' (str "amazonaws.com/v1/repos/") x (n ++ suf) hx
  simp only [renderRef] at h0 h1 hdrop ⊢
  simp only [ccParse, h0, h1, if_true, Bool.false_eq_true, if_false, hdrop, hsplit]
  rw [if_pos hreg]

theorem ccParse_render_fed (x n suf : Str) (hx : ':' ∉ x) (hreg : x ∈ knownAwsRegions) :
    ccParse (renderRef .ccFed x n suf) = .ok ⟨stripDotGit (n ++ suf), x⟩ := by
  have h0 : strStarts (renderRef .ccFed x n suf) (str "https://git-codecommit.") = false :=
    strStarts_append_false _ _ _ (by decide) (by decide)
  have h0b : strStarts (renderRef .ccFed x n suf) (str "ssh://git-codecommit.") = false :=
    strStarts_append_false _ _ _ (by decide) (by decide)
  have h1 : strStarts (renderRef .ccFed x n suf) (str "codecommit::") = true :=
    strStarts_append _ _
  have hdrop : (renderRef .ccFed x n suf).drop (str "codecommit::").length
      = x ++ (str "://" ++ (n ++ suf)) := drop_len_append _ _
  have hsplit : splitFirstL (str "://") (x ++ (str "://" ++ (n ++ suf)))
      = some (x, n ++ suf) := by
    rw [← List.append_assoc]
    exact splitFirstL_append ':' (str "//") x (n ++ suf) hx
  simp only [renderRef] at h0 h0b h1 hdrop ⊢
  simp only [ccParse, h0, h0b, h1, if_true, Bool.false_eq_true, if_false, hdrop, hsplit]
  rw [if_pos hreg]

theorem bbParse_render_https (x n suf : Str) (hx2 : x ≠ []) (hx : '/' ∉ x)
    (hxa : '@' ∉ x) (hn2 : n ≠ []) (hn : '/' ∉ n) (hna : '@' ∉ n)
    (hs : '/' ∉ suf) (hsa : '@' ∉ suf) :
    bbParse (renderRef .bbHttps x n suf) = .ok ⟨stripDotGit (n ++ suf), x⟩ := by
  have h0 : strStarts (renderRef .bbHttps x n suf) (str "ssh://git@bitbucket.org:") = false :=
    strStarts_append_false _ _ _ (by decide) (by decide)
  have h1 : strStarts (renderRef .bbHttps x n suf) (str "https://") = true :=
    strStarts_append _ _
  have hdrop : (renderRef .bbHttps x n suf).drop (str "https://").length
      = str "bitbucket.org/" ++ (x ++ (str "/" ++ (n ++ suf))) := drop_len_append _ _
  have hat : splitFirstCh '@' (str "bitbucket.org/" ++ (x ++ (str "/" ++ (n ++ suf)))) = none := by
    apply splitFirstCh_none
    simp only [List.mem_append]
    rintro (h | h | h | h | h)
    · exact absurd h (by decide)
    · exact hxa h
    · exact absurd h (by decide)
    · exact hna h
    · exact hsa h
  have h2 : strStarts (str "bitbucket.org/" ++ (x ++ (str "/" ++ (n ++ suf))))
      (str "bitbucket.org/") = true := strStarts_append _ _
  have hdrop2 : (str "bitbucket.org/" ++ (x ++ (str "/" ++ (n ++ suf)))).drop
      (str "bitbucket.org/").length = x ++ (str "/" ++ (n ++ suf)) := drop_len_append _ _
  simp only [renderRef] at h0 h1 hdrop ⊢
  simp only [bbParse, h0, h1, if_true, Bool.false_eq_true, if_false, hdrop, hat, h2, hdrop2,
    splitCh_owner_name x n suf hx hn hs]
  rw [if_pos ⟨hx2, by simp [hn2]⟩]

theorem bbParse_render_user (x n suf : Str) (hx2 : x ≠ []) (hx : '/' ∉ x)
    (hxa : '@' ∉ x) (hn2 : n ≠ []) (hn : '/' ∉ n) (hs : '/' ∉ suf) :
    bbParse (renderRef .bbUser x n suf) = .ok ⟨stripDotGit (n ++ suf), x⟩ := by
  have h0 : strStarts (renderRef .bbUser x n suf) (str "ssh://git@bitbucket.org:") = false :=
    strStarts_append_false _ _ _ (by decide) (by decide)
  have h1 : strStarts (renderRef .bbUser x n suf) (str "https://") = true :=
    strStarts_append _ _
  have hdrop : (renderRef .bbUser x n suf).drop (str "https://").length
      = x ++ ('@' :: (str "bitbucket.org/" ++ (x ++ (str "/" ++ (n ++ suf))))) :=
    drop_len_append _ _
  have hat : splitFirstCh '@' (x ++ ('@' :: (str "bitbucket.org/" ++ (x ++ (str "/" ++ (n ++ suf))))))
      = some (x, str "bitbucket.org/" ++ (x ++ (str "/" ++ (n ++ suf)))) :=
    splitFirstCh_append '@' x _ hxa
  have h2 : strStarts (str "bitbucket.org/" ++ (x ++ (str "/" ++ (n ++ suf))))
      (str "bitbucket.org/") = true := strStarts_append _ _
  have hdrop2 : (str "bitbucket.org/" ++ (x ++ (str "/" ++ (n ++ suf)))).drop
      (str "bitbucket.org/").length = x ++ (str "/" ++ (n ++ suf)) := drop_len_append _ _
  simp only [renderRef] at h0 h1 hdrop ⊢
  simp only [bbParse, h0, h1, if_true, Bool.false_eq_true, if_false, hdrop, hat, h2, hdrop2,
    splitCh_owner_name x n suf hx hn hs]
  rw [if_pos ⟨hx2, by simp [hn2]⟩]

theorem bbParse_render_ssh (x n suf : Str) (hx2 : x ≠ []) (hx : '/' ∉ x)
    (hn2 : n ≠ []) (hn : '/' ∉ n) (hs : '/' ∉ suf) :
    bbParse (renderRef .bbSsh x n suf) = .ok ⟨stripDotGit (n ++ suf), x⟩ := by
  have h1 : strStarts (renderRef .bbSsh x n suf) (str "ssh://git@bitbucket.org:") = true :=
    strStarts_append _ _
  have hdrop : (renderRef .bbSsh x n suf).drop (str "ssh://git@bitbucket.org:").length
      = x ++ (str "/" ++ (n ++ suf)) := drop_len_append _ _
  simp only [renderRef] at h1 hdrop ⊢
  simp only [bbParse, h1, if_true, hdrop, splitCh_owner_name x n suf hx hn hs]
  rw [if_pos ⟨hx2, by simp [hn2]⟩]

/-- `TestInitPipelineOpts_Execute / successfully detects local branch and sets
it`, at the Execute level: with a successful branch-detection command whose
captured output is "devBranch", the run stores that branch. -/
theorem testAlign_exec_branchDetected :
    (execute (str "badgoose") [] [] (str "git@github.com:badgoose/goose.git")
        { collabAlign with runnerBranch := .ok (str "devBranch") }).2.2
      = str "devBranch" := by
  rfl

/-- `TestInitPipelineOpts_Execute / sets main as branch name if error fetching
it`, at the Execute level: the branch-detection failure is recovered and the
run succeeds with branch "main". -/
theorem testAlign_exec_branchFallback :
    (execute (str "badgoose") [] [] (str "git@github.com:badgoose/goose.git") collabAlign).1
        = .ok ()
    ∧ (execute (str "badgoose") [] [] (str "git@github.com:badgoose/goose.git") collabAlign).2.2
        = str "main" := by
  exact ⟨rfl, rfl⟩

/-! ## Structural lemmas on step running -/

theorem runSteps_trace_take (steps : List (Ev × Except CliErr Unit)) :
    ∃ k, (runSteps steps).2 = (steps.map Prod.fst).take k := by
  induction steps with
  | nil => exact ⟨0, rfl⟩
  | cons s rest ih =>
    obtain ⟨ev, r⟩ := s
    cases r with
    | error e => exact ⟨1, by simp [runSteps]⟩
    | ok u =>
      obtain ⟨k, hk⟩ := ih
      exact ⟨k + 1, by simp [runSteps, hk]⟩

theorem runSteps_ok_trace (steps : List (Ev × Except CliErr Unit))
    (h : (runSteps steps).1 = .ok ()) :
    (runSteps steps).2 = steps.map Prod.fst := by
  induction steps with
  | nil => rfl
  | cons s rest ih =>
    obtain ⟨ev, r⟩ := s
    cases r with
    | error e => simp [runSteps] at h
    | ok u =>
      simp only [runSteps] at h ⊢
      simp only [List.map_cons]
      rw [ih h]

/-! ## Claims -/

set_option maxRecDepth 4096 in
/-- C1, counterexample to the claim as stated.  The claim asserts that for
every appName and repoName whose unbounded concatenation exceeds 100
characters, the result of the pipeline-name builder is exactly 100 characters
long and still starts with the untruncated `"pipeline-" ++ appName ++ "-"`
prefix.  These two requirements are incompatible as soon as that prefix alone
exceeds 100 characters: here, with a 91-character application name (prefix
length 101) and repository name "r", the unbounded name has 102 characters
but the builder's result does not have length 100. -/
theorem c1_counterexample :
    100 < (str "pipeline-" ++
        str "aaaaaaaaaaaaaaaaaaaaaaaaaaaaaaaaaaaaaaaaaaaaaaaaaaaaaaaaaaaaaaaaaaaaaaaaaaaaaaaaaaaaaaaaaaa" ++
        str "-" ++ str "r").length ∧
    (pipelineName
        (str "aaaaaaaaaaaaaaaaaaaaaaaaaaaaaaaaaaaaaaaaaaaaaaaaaaaaaaaaaaaaaaaaaaaaaaaaaaaaaaaaaaaaaaaaaaa")
        (str "r")).length ≠ 100 := by
  decide

/-- C1, amended: whenever the fixed prefix `"pipeline-" ++ appName ++ "-"`
fits in the 100-character cap, the builder is the identity below the cap and
above it returns exactly 100 characters, removing characters only from the
tail of the repoName segment, so the result still starts with the untruncated
prefix.  (When the prefix alone exceeds the cap the spec leaves the behavior
undefined, §9.) -/
theorem c1_amended_buildName (app repo : Str)
    (h : (str "pipeline-" ++ app ++ str "-").length ≤ 100) :
    ((str "pipeline-" ++ app ++ str "-" ++ repo).length ≤ 100 →
      pipelineName app repo = str "pipeline-" ++ app ++ str "-" ++ repo) ∧
    (100 < (str "pipeline-" ++ app ++ str "-" ++ repo).length →
      (pipelineName app repo).length = 100 ∧
      pipelineName app repo
        = (str "pipeline-" ++ app ++ str "-") ++
            repo.take (100 - (str "pipeline-" ++ app ++ str "-").length)) := by
  have h9 : (str "pipeline-").length = 9 := rfl
  have h1 : (str "-").length = 1 := rfl
  constructor
  · intro hle
    simp only [pipelineName]
    rw [if_pos hle]
  · intro hgt
    have hnle : ¬((str "pipeline-" ++ app ++ str "-" ++ repo).length ≤ 100) := by omega
    refine ⟨?_, ?_⟩
    · simp only [pipelineName]
      rw [if_neg hnle]
      simp only [List.length_append, List.length_take, h9, h1] at h hgt ⊢
      omega
    · simp only [pipelineName]
      rw [if_neg hnle]

/-- C1, witness: the amended theorem applied to the repository test fixture
(50-character application and repository names, unbounded length 110). -/
theorem c1_amended_buildName_witness :
    (str "pipeline-" ++ str "goodmoose01234567820123456783012345678401234567850" ++ str "-").length ≤ 100 ∧
    pipelineName (str "goodmoose01234567820123456783012345678401234567850")
        (str "repo-man101234567820123456783012345678401234567850")
      = str "pipeline-goodmoose01234567820123456783012345678401234567850-repo-man10123456782012345678301234567840" := by
  refine ⟨by decide, ?_⟩
  have h := ((c1_amended_buildName
      (str "goodmoose01234567820123456783012345678401234567850")
      (str "repo-man101234567820123456783012345678401234567850") (by decide)).2
    (by decide)).2
  rw [h]
  decide

/-- Collaborators for the C2 analysis: the application lookup fails, every
other collaborator succeeds (mirrors the Execute test `returns an error if
application cannot be retrieved`). -/
def collabC2 : Collab where
  createSecret := fun _ _ => .okArn (str "some-arn")
  writeManifest := .written (str "/pipeline.yml")
  writeBuildspec := .written (str "/buildspec.yml")
  getApplication := fun _ => .error (str "some error")
  getRegionalResources := .ok ()
  parseBuildspec := .ok (str "hello")
  sessionRegion := .ok (str "us-west-2")
  runnerBranch := .ok (str "main")

/-- C2, counterexample to the claim as stated.  The claim asserts the
provisioner's order is secret, application lookup, regional lookup, render,
manifest write, buildspec write — in particular that the manifest is never
written before the application lookup has succeeded.  In this run the
application lookup fails, yet the manifest-write step is in the trace (and
precedes the lookup), as the repository's own Execute tests pin. -/
theorem c2_counterexample :
    (provision (str "badgoose") (str "goose") (str "hunter2") collabC2).1
        = .error (.wrapped (str "get application badgoose: some error")) ∧
    Ev.evWriteManifest ∈ (provision (str "badgoose") (str "goose") (str "hunter2") collabC2).2 := by
  exact ⟨rfl, by decide⟩

/-- C2, amended: the provisioner performs its side-effecting steps in the
fixed order given by `stepList` — (1) secret creation when the GitHub token
is non-empty, (2) pipeline-manifest write, (3) application-record lookup,
(4) regional-resource lookup, (5) buildspec rendering, (6) buildspec write —
and a failing earlier step prevents all later steps: the trace is always a
prefix of that fixed order, and on success it is exactly that order. -/
theorem c2_amended_provisionOrder (appName repoName token : Str) (c : Collab) :
    (∃ k, (provision appName repoName token c).2
        = ((stepList appName repoName token c).map Prod.fst).take k) ∧
    ((provision appName repoName token c).1 = .ok () →
      (provision appName repoName token c).2
        = (stepList appName repoName token c).map Prod.fst) := by
  exact ⟨runSteps_trace_take _, runSteps_ok_trace _⟩

/-- C2, witness: the amended theorem at a concrete all-success run — the
trace is exactly the six steps in the amended order. -/
theorem c2_amended_provisionOrder_witness :
    (provision (str "badgoose") (str "goose") (str "hunter2") collabAlign).2
      = [Ev.evCreateSecret, .evWriteManifest, .evGetApp, .evGetRegional,
         .evRender, .evWriteBuildspec] := by
  have h := (c2_amended_provisionOrder (str "badgoose") (str "goose") (str "hunter2")
    collabAlign).2 rfl
  rw [h]
  decide

/-- C3: environment resolution iterates the requested names in order; the
first lookup failure aborts the whole operation with the error
"get config of environment name: cause", environments after the failing one
are never queried (the queried list is exactly the prefix up to and including
the failing name), and an empty request resolves to an empty result. -/
theorem c3_envResolution (app : Str) (lookup : Str → Str → Except Str EnvCfg)
    (pre : List Str) (n : Str) (post : List Str) (e : Str)
    (hpre : ∀ m ∈ pre, ∃ env, lookup app m = .ok env)
    (hn : lookup app n = .error e) :
    getEnvConfigs app lookup (pre ++ n :: post)
      = (.error (str "get config of environment " ++ n ++ str ": " ++ e), pre ++ [n]) ∧
    getEnvConfigs app lookup [] = (.ok [], []) := by
  refine ⟨?_, rfl⟩
  induction pre with
  | nil => simp [getEnvConfigs, hn]
  | cons m pre2 ih =>
    obtain ⟨env, henv⟩ := hpre m (List.mem_cons_self m pre2)
    have ih2 := ih (fun m2 hm2 => hpre m2 (List.mem_cons_of_mem m hm2))
    simp only [List.cons_append, getEnvConfigs, henv, List.append_eq, ih2]

/-- C3, witness: the theorem at the test vector — resolving
["test", "prod"] where the "prod" lookup fails. -/
theorem c3_envResolution_witness :
    getEnvConfigs (str "my-app")
        (fun _ nm => if nm = str "test" then .ok ⟨str "test", str "us-west-2", false⟩
                     else .error (str "some error"))
        [str "test", str "prod"]
      = (.error (str "get config of environment prod: some error"),
         [str "test", str "prod"]) := by
  have h := (c3_envResolution (str "my-app")
      (fun _ nm => if nm = str "test" then .ok ⟨str "test", str "us-west-2", false⟩
                   else .error (str "some error"))
      [str "test"] (str "prod") [] (str "some error")
      (fun m hm => ⟨⟨str "test", str "us-west-2", false⟩, by
        rcases List.mem_singleton.mp hm with rfl
        rfl⟩)
      rfl).1
  exact h

/-- Collaborators for the C4 analysis: re-running provisioning against a
fully provisioned workspace — the secret already exists and both artifact
writes report that their file already exists. -/
def collabC4 : Collab where
  createSecret := fun _ _ => .alreadyExists
  writeManifest := .alreadyExists (str "/pipeline.yml")
  writeBuildspec := .alreadyExists (str "/buildspec.yml")
  getApplication := fun _ => .ok ()
  getRegionalResources := .ok ()
  parseBuildspec := .ok (str "hello")
  sessionRegion := .ok (str "us-west-2")
  runnerBranch := .ok (str "main")

/-- C4: re-running artifact provisioning is fully idempotent — when the
secret store reports the already-exists sentinel and both the manifest and
buildspec writes report file-already-exists, provisioning completes with no
error, the two exists conditions are handled independently (both writes are
attempted: both appear in the trace), and neither condition is surfaced to
the caller. -/
theorem c4_idempotence (appName repoName token : Str) (c : Collab)
    (f1 f2 content : Str)
    (h1 : c.createSecret (str "github-token-" ++ appName ++ str "-" ++ repoName) token
        = .alreadyExists)
    (h2 : c.writeManifest = .alreadyExists f1)
    (h3 : c.writeBuildspec = .alreadyExists f2)
    (h4 : c.getApplication appName = .ok ())
    (h5 : c.getRegionalResources = .ok ())
    (h6 : c.parseBuildspec = .ok content) :
    (provision appName repoName token c).1 = .ok () ∧
    Ev.evWriteManifest ∈ (provision appName repoName token c).2 ∧
    Ev.evWriteBuildspec ∈ (provision appName repoName token c).2 := by
  have hsec : secretOutcome appName repoName token c = .ok () := by
    simp only [secretOutcome, h1]
  have hman : manifestOutcome c = .ok () := by simp only [manifestOutcome, h2]
  have happ : appOutcome appName c = .ok () := by simp only [appOutcome, h4]
  have hrg : regionalOutcome c = .ok () := by simp only [regionalOutcome, h5]
  have hren : renderOutcome c = .ok () := by simp only [renderOutcome, h6]
  have hbs : buildspecOutcome c = .ok () := by simp only [buildspecOutcome, h3]
  by_cases htok : token = []
  · simp [provision, stepList, htok, runSteps, hman, happ, hrg, hren, hbs]
  · simp [provision, stepList, htok, runSteps, hsec, hman, happ, hrg, hren, hbs]

/-- C4, witness: the theorem at the concrete re-run collaborators. -/
theorem c4_idempotence_witness :
    (provision (str "badgoose") (str "goose") (str "hunter2") collabC4).1 = .ok () := by
  exact (c4_idempotence (str "badgoose") (str "goose") (str "hunter2") collabC4
    (str "/pipeline.yml") (str "/buildspec.yml") (str "hello")
    rfl rfl rfl rfl rfl rfl).1

/-- C5, counterexample to the claim as stated.  The claim asserts that every
input matching none of the three provider grammars fails with the
unsupported-provider error.  The input "thisisnotevenagithub.comrepository"
is accepted by none of the three provider parsers, yet classification raises
the GitHub malformed-URL error, not the unsupported-provider error — a
reference that resembles a provider's host but fails its grammar gets that
provider's malformed error instead. -/
theorem c5_counterexample :
    ghParse (str "thisisnotevenagithub.comrepository")
        = .error (.ghMalformed (str "thisisnotevenagithub.comrepository")) ∧
    ccParse (str "thisisnotevenagithub.comrepository")
        = .error (.ccMalformed (str "thisisnotevenagithub.comrepository")) ∧
    bbParse (str "thisisnotevenagithub.comrepository")
        = .error (.bbMalformed (str "thisisnotevenagithub.comrepository")) ∧
    classify (str "thisisnotevenagithub.comrepository")
        = .error (.ghMalformed (str "thisisnotevenagithub.comrepository")) ∧
    classify (str "thisisnotevenagithub.comrepository")
        ≠ .error (.unsupportedProvider (str "thisisnotevenagithub.comrepository")) := by
  refine ⟨rfl, rfl, rfl, rfl, ?_⟩
  intro h
  rw [show classify (str "thisisnotevenagithub.comrepository")
      = .error (.ghMalformed (str "thisisnotevenagithub.comrepository")) from rfl] at h
  injection h with h2
  exact absurd h2 (by decide)

/-- C5, amended: for every input string that names none of the three provider
hosts (no "github.com", "codecommit" or "bitbucket.org" fragment),
classification fails with the unsupported-provider error carrying the
original input, whose message enumerates exactly the three supported
providers, and no provisioning step is performed (the run's trace is empty). -/
theorem c5_amended_unsupported (appName token branchArg url : Str) (c : Collab)
    (h1 : hasSub (str "github.com") url = false)
    (h2 : hasSub (str "codecommit") url = false)
    (h3 : hasSub (str "bitbucket.org") url = false) :
    execute appName token branchArg url c
      = (.error (.unsupportedProvider url), [], branchArg) ∧
    renderErr (.unsupportedProvider url)
      = str "repository " ++ url ++
          str " must be from a supported provider: GitHub, CodeCommit or Bitbucket" := by
  refine ⟨?_, rfl⟩
  simp only [classify, h1, h2, h3, Bool.false_eq_true, if_false, execute]

/-- C5, witness: the amended theorem at the Execute test input
"https://gitlab.company.com/group/project.git". -/
theorem c5_amended_unsupported_witness :
    execute (str "demo") [] (str "main")
        (str "https://gitlab.company.com/group/project.git") collabAlign
      = (.error (.unsupportedProvider (str "https://gitlab.company.com/group/project.git")),
         [], str "main") := by
  exact (c5_amended_unsupported (str "demo") [] (str "main")
    (str "https://gitlab.company.com/group/project.git") collabAlign rfl rfl rfl).1

theorem evSession_not_in_provision (a r tok : Str) (c : Collab) :
    Ev.evSession ∉ (provision a r tok c).2 := by
  intro hmem
  obtain ⟨k, hk⟩ := runSteps_trace_take (stepList a r tok c)
  have hmem2 : Ev.evSession ∈ (stepList a r tok c).map Prod.fst := by
    simp only [provision] at hmem
    rw [hk] at hmem
    exact List.take_subset _ _ hmem
  by_cases htok : tok = [] <;> simp [stepList, htok] at hmem2

/-- C6: region reconciliation runs only for CodeCommit references and
compares the repository's parsed region against the session's default
region: on mismatch the run fails with the terminal error naming the
repository and both regions before any provisioning step (the trace is just
the session consultation); on match the run proceeds to provisioning.  For
references classified as GitHub or Bitbucket the session's default region is
never consulted. -/
theorem c6_regionReconciliation (appName token branchArg url : Str) (c : Collab)
    (d : ccRepoDetails) (reg : Str) :
    (classify url = .ok (.cc d) → c.sessionRegion = .ok reg → reg ≠ d.region →
      execute appName token branchArg url c
        = (.error (.regionMismatch d.name d.region appName reg), [.evSession], branchArg) ∧
      renderErr (.regionMismatch d.name d.region appName reg)
        = str "repository " ++ d.name ++ str " is in " ++ d.region ++ str ", but app " ++
            appName ++ str " is in " ++ reg ++ str "; they must be in the same region") ∧
    (classify url = .ok (.cc d) → c.sessionRegion = .ok reg → reg = d.region →
      (execute appName token branchArg url c).1 = (provision appName d.name token c).1 ∧
      Ev.evSession ∈ (execute appName token branchArg url c).2.1) ∧
    (∀ dg : ghRepoDetails, classify url = .ok (.gh dg) →
      Ev.evSession ∉ (execute appName token branchArg url c).2.1) ∧
    (∀ db : bbRepoDetails, classify url = .ok (.bb db) →
      Ev.evSession ∉ (execute appName token branchArg url c).2.1) := by
  refine ⟨?_, ?_, ?_, ?_⟩
  · intro hcls hsess hne
    refine ⟨?_, rfl⟩
    simp only [execute, hcls, regionCheck, hsess]
    rw [if_neg hne]
  · intro hcls hsess heq
    simp only [execute, hcls, regionCheck, hsess]
    rw [if_pos heq]
    exact ⟨rfl, by simp [repoNameOf]⟩
  · intro dg hcls hmem
    simp only [execute, hcls, regionCheck, List.nil_append] at hmem
    rcases List.mem_append.mp hmem with h | h
    · by_cases hb : branchArg = [] <;> simp [hb] at h
    · exact evSession_not_in_provision _ _ _ _ h
  · intro db hcls hmem
    simp only [execute, hcls, regionCheck, List.nil_append] at hmem
    rcases List.mem_append.mp hmem with h | h
    · by_cases hb : branchArg = [] <;> simp [hb] at h
    · exact evSession_not_in_provision _ _ _ _ h

/-- C6, witness: the theorem at the Execute test `returns error when
CodeCommit repository region does not match pipeline's region`. -/
theorem c6_regionReconciliation_witness :
    execute (str "demo") [] (str "main") (str "codecommit::us-west-2://repo-man")
        { collabAlign with sessionRegion := .ok (str "us-east-1") }
      = (.error (.regionMismatch (str "repo-man") (str "us-west-2") (str "demo") (str "us-east-1")),
         [.evSession], str "main") := by
  exact ((c6_regionReconciliation (str "demo") [] (str "main")
      (str "codecommit::us-west-2://repo-man")
      { collabAlign with sessionRegion := .ok (str "us-east-1") }
      ⟨str "repo-man", str "us-west-2"⟩ (str "us-east-1")).1 rfl rfl (by decide)).1

/-- C7, counterexample to the claim as stated.  The suffix stripping removes a
single ".git" occurrence, so for the supported reference
"https://github.com/koke/grit.git" (repository name segment "grit.git"),
parsing the reference and the reference with ".git" appended yields different
identities, and the reference "https://github.com/koke/grit.git.git" is
parsed to a name that still carries a ".git" suffix. -/
theorem c7_counterexample :
    ghParse (str "https://github.com/koke/grit.git") = .ok ⟨str "grit", str "koke"⟩ ∧
    ghParse (str "https://github.com/koke/grit.git.git") = .ok ⟨str "grit.git", str "koke"⟩ ∧
    (⟨str "grit", str "koke"⟩ : ghRepoDetails) ≠ ⟨str "grit.git", str "koke"⟩ ∧
    strEnds (str "grit.git") (str ".git") = true := by
  exact ⟨rfl, rfl, by decide, rfl⟩

/-- C7, amended: for every dialect of every provider and every reference
whose repository-name segment does not itself end in ".git" (and whose
tokens are well-formed for the dialect: non-empty, free of the dialect's
separator characters, and — for CodeCommit — a known region), parsing the
reference with and without a trailing ".git" suffix yields identical
identities, equal to the structured (name, owner-or-region) pair; in
particular the returned name never carries the ".git" suffix, and the same
suffix stripping applies to the name field for every provider. -/
theorem c7_amended_dotGitInvariance (d : RefDialect) (x n : Str)
    (hx1 : x ≠ []) (hx2 : '/' ∉ x) (hx3 : ':' ∉ x) (hx4 : '@' ∉ x) (hx5 : '.' ∉ x)
    (hxr : isCcDialect d = true → x ∈ knownAwsRegions)
    (hn1 : n ≠ []) (hn2 : '/' ∉ n) (hn3 : '@' ∉ n)
    (hn4 : strEnds n (str ".git") = false) :
    parseOf d (renderRef d x n (str ".git")) = parseOf d (renderRef d x n []) ∧
    parseOf d (renderRef d x n []) = .ok (n, x) := by
  have hsg : '/' ∉ str ".git" := by decide
  have hsga : '@' ∉ str ".git" := by decide
  have hse : '/' ∉ ([] : Str) := by decide
  have hsea : '@' ∉ ([] : Str) := by decide
  have hstrip1 : stripDotGit (n ++ str ".git") = n := stripDotGit_append n
  have hstrip2 : stripDotGit (n ++ []) = n := by
    rw [List.append_nil]
    exact stripDotGit_of_not_ends n hn4
  cases d with
  | ghHttps =>
    simp only [parseOf, ghParse_render_https x n (str ".git") hx1 hx2 hn1 hn2 hsg,
      ghParse_render_https x n [] hx1 hx2 hn1 hn2 hse, hstrip1, hstrip2, Except.map]
    exact ⟨trivial, trivial⟩
  | ghAt =>
    simp only [parseOf, ghParse_render_at x n (str ".git") hx1 hx2 hn1 hn2 hsg,
      ghParse_render_at x n [] hx1 hx2 hn1 hn2 hse, hstrip1, hstrip2, Except.map]
    exact ⟨trivial, trivial⟩
  | ghProto =>
    simp only [parseOf, ghParse_render_proto x n (str ".git") hx1 hx2 hn1 hn2 hsg,
      ghParse_render_proto x n [] hx1 hx2 hn1 hn2 hse, hstrip1, hstrip2, Except.map]
    exact ⟨trivial, trivial⟩
  | ccHttps =>
    have hreg := hxr rfl
    simp only [parseOf, ccParse_render_https x n (str ".git") hx5 hreg,
      ccParse_render_https x n [] hx5 hreg, hstrip1, hstrip2, Except.map]
    exact ⟨trivial, trivial⟩
  | ccSsh =>
    have hreg := hxr rfl
    simp only [parseOf, ccParse_render_ssh x n (str ".git") hx5 hreg,
      ccParse_render_ssh x n [] hx5 hreg, hstrip1, hstrip2, Except.map]
    exact ⟨trivial, trivial⟩
  | ccFed =>
    have hreg := hxr rfl
    simp only [parseOf, ccParse_render_fed x n (str ".git") hx3 hreg,
      ccParse_render_fed x n [] hx3 hreg, hstrip1, hstrip2, Except.map]
    exact ⟨trivial, trivial⟩
  | bbHttps =>
    simp only [parseOf, bbParse_render_https x n (str ".git") hx1 hx2 hx4 hn1 hn2 hn3 hsg hsga,
      bbParse_render_https x n [] hx1 hx2 hx4 hn1 hn2 hn3 hse hsea, hstrip1, hstrip2, Except.map]
    exact ⟨trivial, trivial⟩
  | bbUser =>
    simp only [parseOf, bbParse_render_user x n (str ".git") hx1 hx2 hx4 hn1 hn2 hsg,
      bbParse_render_user x n [] hx1 hx2 hx4 hn1 hn2 hse, hstrip1, hstrip2, Except.map]
    exact ⟨trivial, trivial⟩
  | bbSsh =>
    simp only [parseOf, bbParse_render_ssh x n (str ".git") hx1 hx2 hn1 hn2 hsg,
      bbParse_render_ssh x n [] hx1 hx2 hn1 hn2 hse, hstrip1, hstrip2, Except.map]
    exact ⟨trivial, trivial⟩

/-- C7, witness: the amended theorem at the GitHub https dialect with owner
"koke" and name "grit" (the repository's test pair). -/
theorem c7_amended_dotGitInvariance_witness :
    parseOf .ghHttps (renderRef .ghHttps (str "koke") (str "grit") (str ".git"))
        = parseOf .ghHttps (renderRef .ghHttps (str "koke") (str "grit") []) ∧
    parseOf .ghHttps (renderRef .ghHttps (str "koke") (str "grit") [])
        = .ok (str "grit", str "koke") := by
  exact c7_amended_dotGitInvariance .ghHttps (str "koke") (str "grit")
    (by decide) (by decide) (by decide) (by decide) (by decide)
    (fun h => absurd h (by decide))
    (by decide) (by decide) (by decide) (by decide)

theorem execute_indep_runner (appName token branchArg url : Str) (c : Collab)
    (r1 r2 : Except Str Str) :
    (execute appName token branchArg url { c with runnerBranch := r1 }).1
      = (execute appName token branchArg url { c with runnerBranch := r2 }).1 ∧
    (execute appName token branchArg url { c with runnerBranch := r1 }).2.1
      = (execute appName token branchArg url { c with runnerBranch := r2 }).2.1 := by
  cases hcls : classify url with
  | error e => simp [execute, hcls]
  | ok cls =>
    cases cls with
    | cc d =>
      cases hs : c.sessionRegion with
      | error e2 => simp [execute, hcls, regionCheck, hs]
      | ok reg =>
        by_cases hr : reg = d.region
        · simp [execute, hcls, regionCheck, hs, hr, provision, stepList, secretOutcome,
            manifestOutcome, appOutcome, regionalOutcome, renderOutcome, buildspecOutcome]
        · simp [execute, hcls, regionCheck, hs, hr]
    | gh d =>
      simp [execute, hcls, regionCheck, provision, stepList, secretOutcome,
        manifestOutcome, appOutcome, regionalOutcome, renderOutcome, buildspecOutcome]
    | bb d =>
      simp [execute, hcls, regionCheck, provision, stepList, secretOutcome,
        manifestOutcome, appOutcome, regionalOutcome, renderOutcome, buildspecOutcome]

/-- C8: the branch resolver never fails — a non-empty explicit branch is
returned verbatim; a failing branch-detection command yields the literal
"main"; a successful command with blank output yields "main"; a successful
command with non-blank output yields the trimmed first line.  Moreover the
outcome and the step trace of a whole Execute run do not depend on the
branch-detection result at all: branch-detection failure is never fatal and
no error is propagated. -/
theorem c8_branchResolution (explicit out e : Str) (appName token url : Str)
    (c : Collab) (runner : Except Str Str) :
    (explicit ≠ [] → resolveBranch explicit runner = explicit) ∧
    resolveBranch [] (.error e) = str "main" ∧
    (trimStr (firstLine out) = [] → resolveBranch [] (.ok out) = str "main") ∧
    (trimStr (firstLine out) ≠ [] →
      resolveBranch [] (.ok out) = trimStr (firstLine out)) ∧
    (∀ r1 r2 : Except Str Str,
      (execute appName token explicit url { c with runnerBranch := r1 }).1
        = (execute appName token explicit url { c with runnerBranch := r2 }).1) := by
  refine ⟨?_, rfl, ?_, ?_, ?_⟩
  · intro h
    simp [resolveBranch, h]
  · intro h
    simp [resolveBranch, h]
  · intro h
    simp [resolveBranch, h]
  · intro r1 r2
    exact (execute_indep_runner appName token explicit url c r1 r2).1

/-- C8, witness: the theorem at the two branch test vectors — output
"devBranch" is returned, and a failing command falls back to "main". -/
theorem c8_branchResolution_witness :
    resolveBranch [] (.ok (str "devBranch")) = str "devBranch" ∧
    resolveBranch [] (.error (str "some error")) = str "main" := by
  have h := c8_branchResolution [] (str "devBranch") (str "some error")
    (str "demo") [] (str "git@github.com:badgoose/goose.git") collabAlign
    (.ok (str "devBranch"))
  exact ⟨(h.2.2.2.1 (by decide)).trans (by decide), h.2.1⟩

/-- C9: CLI-level validation rejects invocations before any classification or
provisioning — an empty workspace application name fails with the sentinel
no-app-in-workspace error, and a supplied application name different from the
workspace's registered one fails with an error naming both; in both cases
the configuration store is never queried (the query flag is false). -/
theorem c9_validate (appName wsAppName : Str) (getApp : Str → Except Str Unit) :
    (wsAppName = [] →
      validate appName wsAppName getApp = (.error errNoAppInWorkspace, false)) ∧
    (wsAppName ≠ [] → appName ≠ [] → appName ≠ wsAppName →
      validate appName wsAppName getApp
        = (.error (str "cannot specify app " ++ appName ++
            str " because the workspace is already registered with app " ++ wsAppName),
           false)) := by
  constructor
  · intro h
    simp [validate, h]
  · intro h1 h2 h3
    simp only [validate]
    rw [if_neg h1, if_pos ⟨h2, h3⟩]

/-- C9, witness: the theorem at the Validate test vectors (empty workspace
name; "ghost-app" against a workspace registered with "diff-app"). -/
theorem c9_validate_witness :
    validate (str "ghost-app") [] (fun _ => .ok ())
        = (.error errNoAppInWorkspace, false) ∧
    validate (str "ghost-app") (str "diff-app") (fun _ => .ok ())
        = (.error (str "cannot specify app ghost-app because the workspace is already registered with app diff-app"), false) := by
  constructor
  · exact (c9_validate (str "ghost-app") [] (fun _ => .ok ())).1 rfl
  · exact ((c9_validate (str "ghost-app") (str "diff-app") (fun _ => .ok ())).2
      (by decide) (by decide) (by decide)).trans rfl

/-- C10: CodeCommit classification validates the region token itself — a
federated reference `codecommit::{region}://{name}` whose region token is
not a known AWS region is rejected with the error
"unable to parse the AWS region from url", rather than being classified
successfully or reported as an unsupported provider. -/
theorem c10_ccRegionValidation (region nm : Str)
    (h1 : ':' ∉ region)
    (h2 : region ∉ knownAwsRegions)
    (h3 : hasSub (str "github.com") (str "codecommit::" ++ (region ++ (str "://" ++ nm))) = false) :
    classify (str "codecommit::" ++ (region ++ (str "://" ++ nm)))
      = .error (.regionUnparseable (str "codecommit::" ++ (region ++ (str "://" ++ nm)))) ∧
    renderErr (.regionUnparseable (str "codecommit::" ++ (region ++ (str "://" ++ nm))))
      = str "unable to parse the AWS region from " ++
          (str "codecommit::" ++ (region ++ (str "://" ++ nm))) := by
  have hcc : hasSub (str "codecommit") (str "codecommit::" ++ (region ++ (str "://" ++ nm))) = true :=
    hasSub_append (str "codecommit") [] (str "::" ++ (region ++ (str "://" ++ nm)))
  have hc0 : strStarts (str "codecommit::" ++ (region ++ (str "://" ++ nm)))
      (str "https://git-codecommit.") = false :=
    strStarts_append_false _ _ _ (by decide) (by decide)
  have hc0b : strStarts (str "codecommit::" ++ (region ++ (str "://" ++ nm)))
      (str "ssh://git-codecommit.") = false :=
    strStarts_append_false _ _ _ (by decide) (by decide)
  have hc1 : strStarts (str "codecommit::" ++ (region ++ (str "://" ++ nm)))
      (str "codecommit::") = true := strStarts_append _ _
  have hdrop : (str "codecommit::" ++ (region ++ (str "://" ++ nm))).drop
      (str "codecommit::").length = region ++ (str "://" ++ nm) := drop_len_append _ _
  have hsplit : splitFirstL (str "://") (region ++ (str "://" ++ nm)) = some (region, nm) := by
    rw [← List.append_assoc]
    exact splitFirstL_append ':' (str "//") region nm h1
  refine ⟨?_, rfl⟩
  simp only [classify, h3, Bool.false_eq_true, if_false, hcc, if_true,
    ccParse, hc0, hc0b, hc1, hdrop, hsplit]
  rw [if_neg h2]
  rfl

/-- C10, witness: the theorem at the Execute test input
"codecommit::us-mess-2://repo-man". -/
theorem c10_ccRegionValidation_witness :
    classify (str "codecommit::us-mess-2://repo-man")
      = .error (.regionUnparseable (str "codecommit::us-mess-2://repo-man")) := by
  exact (c10_ccRegionValidation (str "us-mess-2") (str "repo-man")
    (by decide) (by decide) (by decide)).1
